import Mathlib

/-!
Verification of the Anime2Sketch model-definition module
(`project/Anime2Sketch/anime2sketch.py`).

The file shallowly embeds the module graph built by the Python code:
* `Layer` is the tree of framework modules a constructed network consists of
  (convolutions with their hyperparameters, activations, normalization
  layers, the custom `Smooth` / `Upsample` modules, and `nn.Sequential`
  blocks with the `outermost` flag of `UnetSkipConnectionBlock`).
* `unetSkipConnectionBlock`, `buildUnetBlocks`, `swapUpconvs` and
  `unetGeneratorInit` mirror `UnetSkipConnectionBlock.__init__` and
  `UnetGenerator.__init__` (recursive construction followed by the
  post-construction replacement of decoder convolutions; the replacement
  loop's possible `IndexError` is modelled by an `Option` result).
* A real-valued tensor semantics (`Tensor`, `evalL`, `evalSeq`,
  `unetGeneratorForward`) gives the inference-time meaning of each layer,
  with all learned parameters supplied by an environment `Env` indexed by
  the submodule path.
-/

/-- The normalization classes that occur in the source
(`nn.InstanceNorm2d` is the generator's default, `nn.BatchNorm2d` is the
default of `UnetSkipConnectionBlock.__init__`). -/
inductive NormClass where
  | instanceNorm2d
  | batchNorm2d
deriving DecidableEq, Repr

/-- Default value of the `affine` flag of each normalization class in the
framework: `InstanceNorm2d` defaults to `affine=False`, `BatchNorm2d` to
`affine=True`. -/
def NormClass.defaultAffine : NormClass → Bool
  | .instanceNorm2d => false
  | .batchNorm2d => true

/-- The `norm_layer` argument: either a plain class, or a
`functools.partial` application fixing the `affine` flag
(`create_model` uses `functools.partial(nn.InstanceNorm2d, affine=False, ...)`). -/
inductive NormArg where
  | plain (cls : NormClass)
  | applied (cls : NormClass) (affine : Bool)
deriving DecidableEq, Repr

/-- The class underlying a `norm_layer` argument (`norm_layer.func` for a
partial application, the class itself otherwise). -/
def NormArg.cls : NormArg → NormClass
  | .plain c => c
  | .applied c _ => c

/-- The `affine` flag of the normalization layer the argument constructs. -/
def NormArg.affine : NormArg → Bool
  | .plain c => c.defaultAffine
  | .applied _ a => a

/-- `use_bias` as computed in `UnetSkipConnectionBlock.__init__`
(lines 102-105): the class (or the partial's `func`) is compared with
`nn.InstanceNorm2d`; the `affine` flag is not consulted. -/
def useBias (norm_layer : NormArg) : Bool :=
  norm_layer.cls = NormClass.instanceNorm2d

/-- One node of the constructed module graph.  `conv2d`/`convT2d` carry
`(in_channels, out_channels, kernel_size, stride, padding, bias)`.
`normL` carries the class, its `affine` flag and the channel count.
`upsampleM inc outc s` is the custom `Upsample(inc, outc, scale_factor=s)`
module.  `seqBlock outermost ls` is a `UnetSkipConnectionBlock` with
`self.outermost = outermost` and `self.model = nn.Sequential(*ls)`. -/
inductive Layer where
  | conv2d (inC outC k s p : ℕ) (bias : Bool)
  | convT2d (inC outC k s p : ℕ) (bias : Bool)
  | leakyReluL
  | reluL
  | tanhL
  | normL (cls : NormClass) (affine : Bool) (nc : ℕ)
  | dropoutL
  | upsampleM (inc outc scale : ℕ)
  | seqBlock (outermost : Bool) (ls : List Layer)

instance : Inhabited Layer := ⟨Layer.reluL⟩

/-- `UnetSkipConnectionBlock.__init__` (lines 87-141).  The source always
passes a submodule except for the innermost block (where it is `None` and
unused); the `getD` default is never reached at the generator's call
sites. -/
def unetSkipConnectionBlock (outer_nc inner_nc : ℕ) (input_nc : Option ℕ)
    (submodule : Option Layer) (outermost innermost : Bool)
    (norm_layer : NormArg) (use_dropout : Bool) : Layer :=
  let use_bias := useBias norm_layer
  let input_nc := input_nc.getD outer_nc
  let downconv := Layer.conv2d input_nc inner_nc 4 2 1 use_bias
  let downrelu := Layer.leakyReluL
  let downnorm := Layer.normL norm_layer.cls norm_layer.affine inner_nc
  let uprelu := Layer.reluL
  let upnorm := Layer.normL norm_layer.cls norm_layer.affine outer_nc
  let sub := submodule.getD default
  if outermost then
    -- upconv = ConvTranspose2d(inner_nc * 2, outer_nc, 4, 2, 1): no bias
    -- argument, so the framework default bias=True applies.
    let upconv := Layer.convT2d (inner_nc * 2) outer_nc 4 2 1 true
    Layer.seqBlock true ([downconv] ++ [sub] ++ [uprelu, upconv, Layer.tanhL])
  else if innermost then
    let upconv := Layer.convT2d inner_nc outer_nc 4 2 1 use_bias
    Layer.seqBlock false ([downrelu, downconv] ++ [uprelu, upconv, upnorm])
  else
    let upconv := Layer.convT2d (inner_nc * 2) outer_nc 4 2 1 use_bias
    if use_dropout then
      Layer.seqBlock false
        ([downrelu, downconv, downnorm] ++ [sub] ++ [uprelu, upconv, upnorm]
          ++ [Layer.dropoutL])
    else
      Layer.seqBlock false
        ([downrelu, downconv, downnorm] ++ [sub] ++ [uprelu, upconv, upnorm])

/-- The innermost block (line 34):
`UnetSkipConnectionBlock(ngf * 8, ngf * 8, input_nc=None, submodule=None,
norm_layer=norm_layer, innermost=True)`. -/
def innerBlock (ngf : ℕ) (norm_layer : NormArg) : Layer :=
  unetSkipConnectionBlock (ngf * 8) (ngf * 8) none none false true norm_layer false

/-- One intermediate block (line 36):
`UnetSkipConnectionBlock(ngf * 8, ngf * 8, input_nc=None, submodule=unet_block,
norm_layer=norm_layer, use_dropout=use_dropout)`. -/
def midBlock (ngf : ℕ) (norm_layer : NormArg) (use_dropout : Bool)
    (sub : Layer) : Layer :=
  unetSkipConnectionBlock (ngf * 8) (ngf * 8) none (some sub) false false
    norm_layer use_dropout

/-- Line 38: `UnetSkipConnectionBlock(ngf * 4, ngf * 8, ...)`. -/
def b3Block (ngf : ℕ) (norm_layer : NormArg) (sub : Layer) : Layer :=
  unetSkipConnectionBlock (ngf * 4) (ngf * 8) none (some sub) false false
    norm_layer false

/-- Line 39: `UnetSkipConnectionBlock(ngf * 2, ngf * 4, ...)`. -/
def b2Block (ngf : ℕ) (norm_layer : NormArg) (sub : Layer) : Layer :=
  unetSkipConnectionBlock (ngf * 2) (ngf * 4) none (some sub) false false
    norm_layer false

/-- Line 40: `UnetSkipConnectionBlock(ngf, ngf * 2, ...)`. -/
def b1Block (ngf : ℕ) (norm_layer : NormArg) (sub : Layer) : Layer :=
  unetSkipConnectionBlock ngf (ngf * 2) none (some sub) false false
    norm_layer false

/-- Line 41: the outermost block
`UnetSkipConnectionBlock(output_nc, ngf, input_nc=input_nc, submodule=unet_block,
outermost=True, norm_layer=norm_layer)`. -/
def outerBlock (input_nc output_nc ngf : ℕ) (norm_layer : NormArg)
    (sub : Layer) : Layer :=
  unetSkipConnectionBlock output_nc ngf (some input_nc) (some sub) true false
    norm_layer false

/-- The recursive construction of `UnetGenerator.__init__` (lines 33-41):
innermost block, `num_downs - 5` intermediate blocks at width `ngf * 8`
(Python's `range(num_downs - 5)` is empty for `num_downs < 5`, like
truncated subtraction), three width-halving blocks, and the outermost
block. -/
def buildUnetBlocks (input_nc output_nc num_downs ngf : ℕ)
    (norm_layer : NormArg) (use_dropout : Bool) : Layer :=
  outerBlock input_nc output_nc ngf norm_layer
    (b1Block ngf norm_layer
      (b2Block ngf norm_layer
        (b3Block ngf norm_layer
          ((midBlock ngf norm_layer use_dropout)^[num_downs - 5]
            (innerBlock ngf norm_layer)))))

/-- The in-place replacement loop of `UnetGenerator.__init__`
(lines 46-49), written functionally: each iteration reads
`base.model[5].in_channels / .out_channels` (which in every reachable
state is a `ConvTranspose2d`), replaces `base.model[5]` by
`Upsample(inc, outc)` (whose `scale_factor` defaults to 2), and continues
at `base.model[3]`.  An out-of-range index (the `IndexError` the framework
raises) or an entry of the wrong kind yields `none`. -/
def swapUpconvs : ℕ → Layer → Option Layer
  | 0, b => some b
  | k + 1, b =>
    match b with
    | .seqBlock om ls =>
      match ls.get? 5 with
      | some (.convT2d inC outC _ _ _ _) =>
        let ls1 := ls.set 5 (Layer.upsampleM inC outC 2)
        match ls1.get? 3 with
        | some sub =>
          (swapUpconvs k sub).map (fun sub1 => Layer.seqBlock om (ls1.set 3 sub1))
        | none => none
      | _ => none
    | _ => none

/-- `UnetGenerator.__init__` up to (and excluding) `load_weights`:
the recursive construction followed by the swap loop starting at
`base = self.model.model[1]` (line 44).  `none` models the constructor
raising (the swap loop's `IndexError`). -/
def unetGeneratorInit (input_nc output_nc num_downs ngf : ℕ)
    (norm_layer : NormArg) (use_dropout : Bool) : Option Layer :=
  let m := buildUnetBlocks input_nc output_nc num_downs ngf norm_layer use_dropout
  match m with
  | .seqBlock om ls =>
    match ls.get? 1 with
    | some base =>
      (swapUpconvs 6 base).map (fun base1 => Layer.seqBlock om (ls.set 1 base1))
    | none => none
  | _ => none

/-- Number of `Upsample` modules in a module tree. -/
def countUp : Layer → ℕ
  | .seqBlock om (l :: ls) => countUp l + countUp (.seqBlock om ls)
  | .seqBlock _ [] => 0
  | .upsampleM _ _ _ => 1
  | _ => 0

/-- `m.model[i]` for a block `m`. -/
def atIdx (l : Layer) (i : ℕ) : Option Layer :=
  match l with
  | .seqBlock _ ls => ls.get? i
  | _ => none

/-- Follow `base = base.model[3]` (the submodule slot of a non-outermost,
non-innermost block) `k` times. -/
def descend3 : ℕ → Layer → Option Layer
  | 0, l => some l
  | k + 1, l => (atIdx l 3).bind (descend3 k)

/-- The `model[5]` entry (the upsampling slot of a non-outermost,
non-innermost block) after `j` descents from a starting block. -/
def upEntryAt (j : ℕ) (b : Layer) : Option Layer :=
  (descend3 j b).bind (fun s => atIdx s 5)

/-- Replace entry `i` of a block's `model` list (`base.model[i] = x`). -/
def setAt (b : Layer) (i : ℕ) (x : Layer) : Layer :=
  match b with
  | .seqBlock om ls => .seqBlock om (ls.set i x)
  | l => l

/-- An intermediate block after the swap loop replaced its
`model[5]` (`ConvTranspose2d(ngf * 8 * 2, ngf * 8, ...)`) by
`Upsample(ngf * 8 * 2, ngf * 8)`. -/
def midBlockSw (ngf : ℕ) (norm_layer : NormArg) (use_dropout : Bool)
    (sub : Layer) : Layer :=
  setAt (midBlock ngf norm_layer use_dropout sub) 5
    (Layer.upsampleM (ngf * 8 * 2) (ngf * 8) 2)

/-- The `(ngf * 4, ngf * 8)` block after its upconv was swapped. -/
def b3BlockSw (ngf : ℕ) (norm_layer : NormArg) (sub : Layer) : Layer :=
  setAt (b3Block ngf norm_layer sub) 5 (Layer.upsampleM (ngf * 8 * 2) (ngf * 4) 2)

/-- The `(ngf * 2, ngf * 4)` block after its upconv was swapped. -/
def b2BlockSw (ngf : ℕ) (norm_layer : NormArg) (sub : Layer) : Layer :=
  setAt (b2Block ngf norm_layer sub) 5 (Layer.upsampleM (ngf * 4 * 2) (ngf * 2) 2)

/-- The `(ngf, ngf * 2)` block after its upconv was swapped. -/
def b1BlockSw (ngf : ℕ) (norm_layer : NormArg) (sub : Layer) : Layer :=
  setAt (b1Block ngf norm_layer sub) 5 (Layer.upsampleM (ngf * 2 * 2) ngf 2)

/-- Per-stage information extracted from a block: the `outermost` flag,
`(in_channels, out_channels)` of the first plain convolution (the
downsampling convolution), `(in_channels, out_channels)` of the first
transposed convolution (the upsampling convolution), and whether the
block holds a nested block. -/
def downConvOf : List Layer → Option (ℕ × ℕ)
  | [] => none
  | .conv2d a b _ _ _ _ :: _ => some (a, b)
  | _ :: rest => downConvOf rest

/-- `(in_channels, out_channels)` of the first transposed convolution. -/
def upConvOf : List Layer → Option (ℕ × ℕ)
  | [] => none
  | .convT2d a b _ _ _ _ :: _ => some (a, b)
  | _ :: rest => upConvOf rest

/-- Whether a layer list contains a nested block. -/
def hasSubL : List Layer → Bool
  | [] => false
  | .seqBlock _ _ :: _ => true
  | _ :: rest => hasSubL rest

mutual

/-- The chain of nested `UnetSkipConnectionBlock` stages, outermost
first: for each stage its `outermost` flag, downconv channels, upconv
channels, and whether it has a nested submodule. -/
def stagesOf : Layer → List (Bool × Option (ℕ × ℕ) × Option (ℕ × ℕ) × Bool)
  | .seqBlock om ls => (om, downConvOf ls, upConvOf ls, hasSubL ls) :: stagesSub ls
  | _ => []

/-- Stages of the first nested block of a layer list. -/
def stagesSub : List Layer → List (Bool × Option (ℕ × ℕ) × Option (ℕ × ℕ) × Bool)
  | [] => []
  | .seqBlock om ls :: _ => stagesOf (.seqBlock om ls)
  | _ :: rest => stagesSub rest

end

/-- The convolutions a `UnetSkipConnectionBlock.__init__` call itself
creates (not those of its nested submodule): `(in_channels, out_channels,
has_bias)` of each `Conv2d`/`ConvTranspose2d` entry of its top-level
layer list, in order. -/
def createdConvs : Layer → List (ℕ × ℕ × Bool)
  | .seqBlock _ ls => ls.foldr
      (fun l acc =>
        match l with
        | .conv2d a b _ _ _ bias => (a, b, bias) :: acc
        | .convT2d a b _ _ _ bias => (a, b, bias) :: acc
        | _ => acc) []
  | _ => []

/-- The module graph `UnetGenerator.__init__` ends up with for
`num_downs = n + 8`: the six outermost non-outermost blocks carry
`Upsample` modules in their upsampling slots, the remaining `n`
intermediate blocks, the innermost block and the outermost block are
untouched. -/
def postSwapModel (input_nc output_nc ngf n : ℕ) (norm_layer : NormArg)
    (use_dropout : Bool) : Layer :=
  outerBlock input_nc output_nc ngf norm_layer
    (b1BlockSw ngf norm_layer
      (b2BlockSw ngf norm_layer
        (b3BlockSw ngf norm_layer
          (midBlockSw ngf norm_layer use_dropout
            (midBlockSw ngf norm_layer use_dropout
              (midBlockSw ngf norm_layer use_dropout
                ((midBlock ngf norm_layer use_dropout)^[n]
                  (innerBlock ngf norm_layer))))))))

/-! ## Structural lemmas about construction and the swap loop -/

theorem swap_mid_step (g : ℕ) (arg : NormArg) (ud : Bool) (k : ℕ) (sub : Layer) :
    swapUpconvs (k + 1) (midBlock g arg ud sub)
      = (swapUpconvs k sub).map (midBlockSw g arg ud) := by
  cases ud <;> rfl

theorem swap_b3_step (g : ℕ) (arg : NormArg) (k : ℕ) (sub : Layer) :
    swapUpconvs (k + 1) (b3Block g arg sub)
      = (swapUpconvs k sub).map (b3BlockSw g arg) := rfl

theorem swap_b2_step (g : ℕ) (arg : NormArg) (k : ℕ) (sub : Layer) :
    swapUpconvs (k + 1) (b2Block g arg sub)
      = (swapUpconvs k sub).map (b2BlockSw g arg) := rfl

theorem swap_b1_step (g : ℕ) (arg : NormArg) (k : ℕ) (sub : Layer) :
    swapUpconvs (k + 1) (b1Block g arg sub)
      = (swapUpconvs k sub).map (b1BlockSw g arg) := rfl

theorem init_frame (i o d g : ℕ) (arg : NormArg) (ud : Bool) :
    unetGeneratorInit i o d g arg ud
      = (swapUpconvs 6 (b1Block g arg (b2Block g arg (b3Block g arg
          ((midBlock g arg ud)^[d - 5] (innerBlock g arg)))))).map
          (fun b1 => setAt (buildUnetBlocks i o d g arg ud) 1 b1) := rfl

theorem setAt_outer (i o g : ℕ) (arg : NormArg) (s s1 : Layer) :
    setAt (outerBlock i o g arg s) 1 s1 = outerBlock i o g arg s1 := rfl

/-- For `num_downs = n + 8` the constructor succeeds and produces exactly
`postSwapModel`. -/
theorem init_eq_postSwap (i o g n : ℕ) (arg : NormArg) (ud : Bool) :
    unetGeneratorInit i o (n + 8) g arg ud
      = some (postSwapModel i o g n arg ud) := by
  rw [init_frame]
  have h35 : n + 8 - 5 = n + 3 := by omega
  rw [h35, Function.iterate_succ_apply', Function.iterate_succ_apply',
    Function.iterate_succ_apply', swap_b1_step, swap_b2_step, swap_b3_step,
    swap_mid_step, swap_mid_step, swap_mid_step]
  rfl

theorem countUp_midChain (g : ℕ) (arg : NormArg) (ud : Bool) :
    ∀ n, countUp ((midBlock g arg ud)^[n] (innerBlock g arg)) = 0 := by
  intro n
  induction n with
  | zero => simp [innerBlock, unetSkipConnectionBlock, countUp]
  | succ k ih =>
    rw [Function.iterate_succ_apply']
    cases ud <;> simp [midBlock, unetSkipConnectionBlock, countUp] <;> exact ih

theorem midChain_isBlock (g : ℕ) (arg : NormArg) (ud : Bool) :
    ∀ n, ∃ ls, (midBlock g arg ud)^[n] (innerBlock g arg) = Layer.seqBlock false ls := by
  intro n
  induction n with
  | zero => exact ⟨_, rfl⟩
  | succ k ih =>
    rw [Function.iterate_succ_apply']
    obtain ⟨ls, h⟩ := ih
    rw [h]
    cases ud <;> exact ⟨_, rfl⟩

theorem stages_midChain (g : ℕ) (arg : NormArg) (ud : Bool) :
    ∀ n, stagesOf ((midBlock g arg ud)^[n] (innerBlock g arg))
      = List.replicate n (false, some (g * 8, g * 8), some (g * 8 * 2, g * 8), true)
        ++ [(false, some (g * 8, g * 8), some (g * 8, g * 8), false)] := by
  intro n
  induction n with
  | zero =>
    simp [innerBlock, unetSkipConnectionBlock, stagesOf, stagesSub, downConvOf,
      upConvOf, hasSubL]
  | succ k ih =>
    rw [Function.iterate_succ_apply']
    obtain ⟨ls, h⟩ := midChain_isBlock g arg ud k
    rw [h] at ih ⊢
    cases ud <;>
      simp [midBlock, unetSkipConnectionBlock, stagesOf, stagesSub, downConvOf,
        upConvOf, hasSubL, List.replicate_succ] <;> exact ih

/-! ## Real-valued inference semantics

A tensor is a 4-dimensional `(N, C, H, W)` array, modelled as a shape
together with a total indexing function (out-of-range indices are
mathematically irrelevant; every theorem only constrains in-range
behaviour or holds for all indices).  Learned parameters are supplied by
an environment mapping the submodule path (the sequence of
`nn.Sequential` indices leading to the module) to its parameter set.
Randomness-free inference-time semantics is modelled: `nn.Dropout` is the
identity (the module is used for inference on loaded weights) and
`nn.BatchNorm2d` uses its running statistics. -/

structure Tensor where
  n : ℕ
  c : ℕ
  h : ℕ
  w : ℕ
  data : ℕ → ℕ → ℕ → ℕ → ℝ

/-- The shape `(N, C, H, W)` of a tensor. -/
def shapeOf (x : Tensor) : ℕ × ℕ × ℕ × ℕ := (x.n, x.c, x.h, x.w)

/-- Parameters a single module may own: convolution weight
`(out_ch, in_ch, kh, kw)` (for `ConvTranspose2d`: `(in_ch, out_ch, kh, kw)`),
convolution bias, normalization affine weights, and running statistics. -/
structure PParams where
  weight : ℕ → ℕ → ℕ → ℕ → ℝ
  bias : ℕ → ℝ
  gamma : ℕ → ℝ
  beta : ℕ → ℝ
  runMean : ℕ → ℝ
  runVar : ℕ → ℝ

/-- Parameter environment, indexed by submodule path. -/
def Env : Type := List ℕ → PParams

/-- Elementwise application. -/
def mapT (f : ℝ → ℝ) (x : Tensor) : Tensor :=
  { x with data := fun nn c i j => f (x.data nn c i j) }

/-- Zero-padded accessor used by `Conv2d` (`padding` fills with zeros). -/
noncomputable def zpad (x : Tensor) (nn c : ℕ) (i j : ℤ) : ℝ :=
  if 0 ≤ i ∧ i < (x.h : ℤ) ∧ 0 ≤ j ∧ j < (x.w : ℤ) then
    x.data nn c i.toNat j.toNat
  else 0

/-- `nn.Conv2d(inC, outC, kernel_size=k, stride=s, padding=pd, bias=bias)`:
output spatial size `(H + 2*pd - k) / s + 1`, cross-correlation with
zero padding. -/
noncomputable def conv2dEval (pp : PParams) (inC outC k s pd : ℕ) (bias : Bool)
    (x : Tensor) : Tensor :=
  { n := x.n, c := outC,
    h := (x.h + 2 * pd - k) / s + 1,
    w := (x.w + 2 * pd - k) / s + 1,
    data := fun nn co oh ow =>
      (if bias then pp.bias co else 0) +
      ∑ ci ∈ Finset.range inC, ∑ ki ∈ Finset.range k, ∑ kj ∈ Finset.range k,
        pp.weight co ci ki kj
          * zpad x nn ci ((s * oh + ki : ℤ) - pd) ((s * ow + kj : ℤ) - pd) }

/-- `nn.ConvTranspose2d(inC, outC, kernel_size=k, stride=s, padding=pd)`:
output spatial size `(H - 1) * s + k - 2*pd` (truncated subtraction agrees
with the framework formula for every size the network produces); output
position `o` accumulates every input position `i` and kernel offset `ki`
with `i * s + ki = o + pd`. -/
noncomputable def convT2dEval (pp : PParams) (inC outC k s pd : ℕ) (bias : Bool)
    (x : Tensor) : Tensor :=
  { n := x.n, c := outC,
    h := (x.h - 1) * s + k - 2 * pd,
    w := (x.w - 1) * s + k - 2 * pd,
    data := fun nn co oh ow =>
      (if bias then pp.bias co else 0) +
      ∑ ci ∈ Finset.range inC, ∑ ih ∈ Finset.range x.h, ∑ iw ∈ Finset.range x.w,
        ∑ ki ∈ Finset.range k, ∑ kj ∈ Finset.range k,
          if ih * s + ki = oh + pd ∧ iw * s + kj = ow + pd then
            x.data nn ci ih iw * pp.weight ci co ki kj
          else 0 }

/-- `nn.LeakyReLU(0.2)`. -/
noncomputable def leakyReluEval (x : Tensor) : Tensor :=
  mapT (fun v => if v < 0 then 2 / 10 * v else v) x

/-- `nn.ReLU`. -/
noncomputable def reluEval (x : Tensor) : Tensor :=
  mapT (fun v => max v 0) x

/-- `nn.Tanh`. -/
noncomputable def tanhEval (x : Tensor) : Tensor :=
  mapT Real.tanh x

/-- `nn.InstanceNorm2d(nc)` (`track_running_stats=False`): per-sample,
per-channel standardization by spatial mean and biased variance, with
`eps = 1e-5`; affine transform when `affine=True`. -/
noncomputable def instNormEval (pp : PParams) (affine : Bool) (x : Tensor) : Tensor :=
  { x with data := fun nn c i j =>
      let mu := (∑ a ∈ Finset.range x.h, ∑ b ∈ Finset.range x.w, x.data nn c a b)
        / (x.h * x.w)
      let vr := (∑ a ∈ Finset.range x.h, ∑ b ∈ Finset.range x.w,
        (x.data nn c a b - mu) ^ 2) / (x.h * x.w)
      let y := (x.data nn c i j - mu) / Real.sqrt (vr + 1 / 100000)
      if affine then pp.gamma c * y + pp.beta c else y }

/-- `nn.BatchNorm2d(nc)` in inference mode: standardization by the
running statistics with `eps = 1e-5`; affine transform when
`affine=True`. -/
noncomputable def batchNormEval (pp : PParams) (affine : Bool) (x : Tensor) : Tensor :=
  { x with data := fun nn c i j =>
      let y := (x.data nn c i j - pp.runMean c) / Real.sqrt (pp.runVar c + 1 / 100000)
      if affine then pp.gamma c * y + pp.beta c else y }

/-- Dispatch on the normalization class. -/
noncomputable def normEval (pp : PParams) (cls : NormClass) (affine : Bool)
    (x : Tensor) : Tensor :=
  match cls with
  | .instanceNorm2d => instNormEval pp affine x
  | .batchNorm2d => batchNormEval pp affine x

/-- The Gauss error function (the framework's exact `nn.GELU` uses it). -/
noncomputable def erf (x : ℝ) : ℝ :=
  2 / Real.sqrt Real.pi * ∫ t in (0:ℝ)..x, Real.exp (-(t ^ 2))

/-- `nn.GELU()` (default exact form): `0.5 * x * (1 + erf(x / sqrt 2))`. -/
noncomputable def geluEval (x : Tensor) : Tensor :=
  mapT (fun v => 1 / 2 * v * (1 + erf (v / Real.sqrt 2))) x

/-- `nn.Upsample(scale_factor=s, mode='bilinear')` (`align_corners=False`):
output size `s * H`; each output position samples the input at
`(dst + 0.5) / s - 0.5` (clamped below at 0) by bilinear interpolation of
the two neighbouring in-range rows/columns. -/
noncomputable def bilinearUpEval (s : ℕ) (x : Tensor) : Tensor :=
  { n := x.n, c := x.c, h := s * x.h, w := s * x.w,
    data := fun nn c oh ow =>
      let srcH : ℝ := max 0 ((oh + 1 / 2) / s - 1 / 2)
      let srcW : ℝ := max 0 ((ow + 1 / 2) / s - 1 / 2)
      let i0 : ℕ := min (Int.toNat ⌊srcH⌋) (x.h - 1)
      let j0 : ℕ := min (Int.toNat ⌊srcW⌋) (x.w - 1)
      let i1 : ℕ := min (i0 + 1) (x.h - 1)
      let j1 : ℕ := min (j0 + 1) (x.w - 1)
      let lh : ℝ := srcH - i0
      let lw : ℝ := srcW - j0
      (1 - lh) * ((1 - lw) * x.data nn c i0 j0 + lw * x.data nn c i0 j1)
        + lh * ((1 - lw) * x.data nn c i1 j0 + lw * x.data nn c i1 j1) }

/-- The fixed 3x3 kernel of `Smooth.__init__` before normalization. -/
noncomputable def smoothKernelRaw (i j : ℕ) : ℝ :=
  match i, j with
  | 0, 0 => 1 | 0, 1 => 2 | 0, 2 => 1
  | 1, 0 => 2 | 1, 1 => 4 | 1, 2 => 2
  | 2, 0 => 1 | 2, 1 => 2 | 2, 2 => 1
  | _, _ => 0

/-- `kernel.sum()`. -/
noncomputable def smoothKernelSum : ℝ :=
  ∑ i ∈ Finset.range 3, ∑ j ∈ Finset.range 3, smoothKernelRaw i j

/-- The normalized kernel (`kernel /= kernel.sum()`). -/
noncomputable def smoothKernel (i j : ℕ) : ℝ :=
  smoothKernelRaw i j / smoothKernelSum

/-- `nn.ReplicationPad2d(1)`: pad each side by one replicated
row/column. -/
noncomputable def repPad1 (x : Tensor) : Tensor :=
  { n := x.n, c := x.c, h := x.h + 2, w := x.w + 2,
    data := fun nn c i j => x.data nn c (min (i - 1) (x.h - 1)) (min (j - 1) (x.w - 1)) }

/-- `Smooth.forward` (lines 163-168): merge batch and channel axes
(`x.view(-1, 1, h, w)`), replication-pad by 1, convolve with the fixed
single-channel kernel (`F.conv2d`, stride 1, no padding), and view the
result back as `(b, c, h, w)`. -/
noncomputable def smoothEval (x : Tensor) : Tensor :=
  let merged : Tensor :=
    { n := x.n * x.c, c := 1, h := x.h, w := x.w,
      data := fun n0 _ i j => x.data (n0 / x.c) (n0 % x.c) i j }
  let padded := repPad1 merged
  let conv : Tensor :=
    { n := padded.n, c := 1, h := padded.h - 3 + 1, w := padded.w - 3 + 1,
      data := fun n0 _ i j =>
        ∑ ki ∈ Finset.range 3, ∑ kj ∈ Finset.range 3,
          smoothKernel ki kj * padded.data n0 0 (i + ki) (j + kj) }
  { n := x.n, c := x.c, h := x.h, w := x.w,
    data := fun nn c i j => conv.data (nn * x.c + c) 0 i j }

/-- Pointwise addition (shape taken from the first argument). -/
noncomputable def addT (x y : Tensor) : Tensor :=
  { n := x.n, c := x.c, h := x.h, w := x.w,
    data := fun nn c i j => x.data nn c i j + y.data nn c i j }

/-- `torch.cat([x, y], 1)`: concatenation along the channel axis.  The
framework requires the non-channel sizes of both arguments to agree; the
processed path's sizes are recorded, so a hypothetical mismatch
propagates to the result shape instead of being masked. -/
noncomputable def catC (x y : Tensor) : Tensor :=
  { n := x.n, c := x.c + y.c, h := y.h, w := y.w,
    data := fun nn c i j =>
      if c < x.c then x.data nn c i j else y.data nn (c - x.c) i j }

/-- `Upsample.forward` (lines 184-188): bilinear upsampling, `Smooth`,
the learned 3x3 stride-1 padding-1 convolution, then the residual
bottleneck `mlp` (1x1 conv to `4 * outc`, GELU, 1x1 conv back), returning
`mlp(conv_out) + conv_out`.  Submodule paths follow the registration
order `up, smooth, conv, mlp` with `mlp = Sequential(conv, GELU, conv)`. -/
noncomputable def upsampleEval (θ : Env) (p : List ℕ) (inc outc s : ℕ)
    (x : Tensor) : Tensor :=
  let u := bilinearUpEval s x
  let sm := smoothEval u
  let co := conv2dEval (θ (p ++ [2])) inc outc 3 1 1 true sm
  let m1 := conv2dEval (θ (p ++ [3, 0])) outc (4 * outc) 1 1 0 true co
  let m2 := geluEval m1
  let m3 := conv2dEval (θ (p ++ [3, 2])) (4 * outc) outc 1 1 0 true m2
  addT m3 co

mutual

/-- Inference semantics of one module at submodule path `p`.  For a
`UnetSkipConnectionBlock` this is `UnetSkipConnectionBlock.forward`
(lines 143-147): the outermost block returns `self.model(x)`, every
other block returns `torch.cat([x, self.model(x)], 1)`. -/
noncomputable def evalL (θ : Env) : Layer → List ℕ → Tensor → Tensor
  | .conv2d ic oc k s pd b => fun p x => conv2dEval (θ p) ic oc k s pd b x
  | .convT2d ic oc k s pd b => fun p x => convT2dEval (θ p) ic oc k s pd b x
  | .leakyReluL => fun _ x => leakyReluEval x
  | .reluL => fun _ x => reluEval x
  | .tanhL => fun _ x => tanhEval x
  | .normL cls a _ => fun p x => normEval (θ p) cls a x
  | .dropoutL => fun _ x => x
  | .upsampleM ic oc s => fun p x => upsampleEval θ p ic oc s x
  | .seqBlock om ls => fun p x =>
    let y := evalSeq θ ls p 0 x
    if om then y else catC x y

/-- `nn.Sequential` semantics: apply the layers in order, layer `i` at
path `p ++ [i]`. -/
noncomputable def evalSeq (θ : Env) :
    List Layer → List ℕ → ℕ → Tensor → Tensor
  | [] => fun _ _ x => x
  | l :: ls => fun p i x => evalSeq θ ls p (i + 1) (evalL θ l (p ++ [i]) x)

end

@[simp] theorem evalSeq_nil (θ : Env) (p : List ℕ) (i : ℕ) (x : Tensor) :
    evalSeq θ [] p i x = x := rfl

@[simp] theorem evalSeq_cons (θ : Env) (p : List ℕ) (i : ℕ) (l : Layer)
    (ls : List Layer) (x : Tensor) :
    evalSeq θ (l :: ls) p i x = evalSeq θ ls p (i + 1) (evalL θ l (p ++ [i]) x) := rfl

@[simp] theorem evalL_conv2d (θ : Env) (p : List ℕ) (ic oc k s pd : ℕ)
    (b : Bool) (x : Tensor) :
    evalL θ (.conv2d ic oc k s pd b) p x = conv2dEval (θ p) ic oc k s pd b x := rfl

@[simp] theorem evalL_convT2d (θ : Env) (p : List ℕ) (ic oc k s pd : ℕ)
    (b : Bool) (x : Tensor) :
    evalL θ (.convT2d ic oc k s pd b) p x = convT2dEval (θ p) ic oc k s pd b x := rfl

@[simp] theorem evalL_leakyRelu (θ : Env) (p : List ℕ) (x : Tensor) :
    evalL θ .leakyReluL p x = leakyReluEval x := rfl

@[simp] theorem evalL_relu (θ : Env) (p : List ℕ) (x : Tensor) :
    evalL θ .reluL p x = reluEval x := rfl

@[simp] theorem evalL_tanh (θ : Env) (p : List ℕ) (x : Tensor) :
    evalL θ .tanhL p x = tanhEval x := rfl

@[simp] theorem evalL_norm (θ : Env) (p : List ℕ) (cls : NormClass)
    (a : Bool) (nc : ℕ) (x : Tensor) :
    evalL θ (.normL cls a nc) p x = normEval (θ p) cls a x := rfl

@[simp] theorem evalL_dropout (θ : Env) (p : List ℕ) (x : Tensor) :
    evalL θ .dropoutL p x = x := rfl

@[simp] theorem evalL_upsample (θ : Env) (p : List ℕ) (ic oc s : ℕ) (x : Tensor) :
    evalL θ (.upsampleM ic oc s) p x = upsampleEval θ p ic oc s x := rfl

@[simp] theorem evalL_seqBlock (θ : Env) (p : List ℕ) (om : Bool)
    (ls : List Layer) (x : Tensor) :
    evalL θ (.seqBlock om ls) p x
      = (if om then evalSeq θ ls p 0 x else catC x (evalSeq θ ls p 0 x)) := rfl

/-- `UnetGenerator.forward` (lines 72-78): rescale the input from
`[0, 1]` to `[-1, 1]`, run the block tree, rescale the output from
`[-1, 1]` to `[0, 1]`. -/
noncomputable def unetGeneratorForward (θ : Env) (model : Layer) (x : Tensor) :
    Tensor :=
  let input := mapT (fun v => (v - 1 / 2) * 2) x
  let output := evalL θ model [] input
  mapT (fun v => (v + 1) / 2) output

/-! ## Weight loading (`UnetGenerator.load_weights`, lines 54-69)

The filesystem and the file contents are parameters (`fsExists`, `disk`).
A parameter state is a keyed list of (abstracted) tensors; the
framework's strict `load_state_dict` succeeds exactly when the keys of
the file match the keys of the model, replacing every parameter, and
raises otherwise (modelled by `Except.error`).  `print` output is
returned as the list of printed lines. -/

/-- The default `model_path` argument. -/
def defaultModelPath : String := "models/Anime2Sketch.pth"

/-- `checkpoint = model_path if cdir == "" else cdir + "/" + model_path`
(line 56), with `cdir = os.path.dirname(__file__)` a parameter. -/
def checkpointPath (cdir model_path : String) : String :=
  if cdir = "" then model_path else cdir ++ "/" ++ model_path

/-- The single quote character (used in the warning message). -/
def squote : String := String.mk [Char.ofNat 39]

/-- `print("-" * 32, "Warnning", "-" * 32)` (line 68). -/
def warnHeader : String :=
  String.mk (List.replicate 32 (Char.ofNat 45)) ++ " Warnning "
    ++ String.mk (List.replicate 32 (Char.ofNat 45))

/-- `print(f"Weight file '{checkpoint}' not exist !!!")` (line 69). -/
def warnBody (checkpoint : String) : String :=
  "Weight file " ++ squote ++ checkpoint ++ squote ++ " not exist !!!"

/-- `print(f"Loading weight from {checkpoint} ...")` (line 59). -/
def loadingMsg (checkpoint : String) : String :=
  "Loading weight from " ++ checkpoint ++ " ..."

/-- `UnetGenerator.load_weights`: returns the (possibly replaced)
parameter state together with the printed lines, or the framework error
`load_state_dict` raises on a key mismatch. -/
def load_weights (fsExists : String → Bool)
    (disk : String → List (String × ℤ)) (cdir model_path : String)
    (params : List (String × ℤ)) :
    Except String (List (String × ℤ) × List String) :=
  let checkpoint := checkpointPath cdir model_path
  if fsExists checkpoint then
    let weight_state := disk checkpoint
    if weight_state.map Prod.fst = params.map Prod.fst then
      Except.ok (weight_state, [loadingMsg checkpoint])
    else
      Except.error "load_state_dict: state dict keys do not match"
  else
    Except.ok (params, [warnHeader, warnBody checkpoint])

/-! ## Shape lemmas -/

@[simp] theorem mapT_n (f : ℝ → ℝ) (x : Tensor) : (mapT f x).n = x.n := rfl
@[simp] theorem mapT_c (f : ℝ → ℝ) (x : Tensor) : (mapT f x).c = x.c := rfl
@[simp] theorem mapT_h (f : ℝ → ℝ) (x : Tensor) : (mapT f x).h = x.h := rfl
@[simp] theorem mapT_w (f : ℝ → ℝ) (x : Tensor) : (mapT f x).w = x.w := rfl

@[simp] theorem conv2dEval_n (pp : PParams) (ic oc k s pd : ℕ) (b : Bool) (x : Tensor) :
    (conv2dEval pp ic oc k s pd b x).n = x.n := rfl
@[simp] theorem conv2dEval_c (pp : PParams) (ic oc k s pd : ℕ) (b : Bool) (x : Tensor) :
    (conv2dEval pp ic oc k s pd b x).c = oc := rfl
@[simp] theorem conv2dEval_h (pp : PParams) (ic oc k s pd : ℕ) (b : Bool) (x : Tensor) :
    (conv2dEval pp ic oc k s pd b x).h = (x.h + 2 * pd - k) / s + 1 := rfl
@[simp] theorem conv2dEval_w (pp : PParams) (ic oc k s pd : ℕ) (b : Bool) (x : Tensor) :
    (conv2dEval pp ic oc k s pd b x).w = (x.w + 2 * pd - k) / s + 1 := rfl

@[simp] theorem convT2dEval_n (pp : PParams) (ic oc k s pd : ℕ) (b : Bool) (x : Tensor) :
    (convT2dEval pp ic oc k s pd b x).n = x.n := rfl
@[simp] theorem convT2dEval_c (pp : PParams) (ic oc k s pd : ℕ) (b : Bool) (x : Tensor) :
    (convT2dEval pp ic oc k s pd b x).c = oc := rfl
@[simp] theorem convT2dEval_h (pp : PParams) (ic oc k s pd : ℕ) (b : Bool) (x : Tensor) :
    (convT2dEval pp ic oc k s pd b x).h = (x.h - 1) * s + k - 2 * pd := rfl
@[simp] theorem convT2dEval_w (pp : PParams) (ic oc k s pd : ℕ) (b : Bool) (x : Tensor) :
    (convT2dEval pp ic oc k s pd b x).w = (x.w - 1) * s + k - 2 * pd := rfl

@[simp] theorem leakyReluEval_n (x : Tensor) : (leakyReluEval x).n = x.n := rfl
@[simp] theorem leakyReluEval_c (x : Tensor) : (leakyReluEval x).c = x.c := rfl
@[simp] theorem leakyReluEval_h (x : Tensor) : (leakyReluEval x).h = x.h := rfl
@[simp] theorem leakyReluEval_w (x : Tensor) : (leakyReluEval x).w = x.w := rfl

@[simp] theorem reluEval_n (x : Tensor) : (reluEval x).n = x.n := rfl
@[simp] theorem reluEval_c (x : Tensor) : (reluEval x).c = x.c := rfl
@[simp] theorem reluEval_h (x : Tensor) : (reluEval x).h = x.h := rfl
@[simp] theorem reluEval_w (x : Tensor) : (reluEval x).w = x.w := rfl

@[simp] theorem tanhEval_n (x : Tensor) : (tanhEval x).n = x.n := rfl
@[simp] theorem tanhEval_c (x : Tensor) : (tanhEval x).c = x.c := rfl
@[simp] theorem tanhEval_h (x : Tensor) : (tanhEval x).h = x.h := rfl
@[simp] theorem tanhEval_w (x : Tensor) : (tanhEval x).w = x.w := rfl

@[simp] theorem normEval_n (pp : PParams) (cls : NormClass) (a : Bool) (x : Tensor) :
    (normEval pp cls a x).n = x.n := by cases cls <;> rfl
@[simp] theorem normEval_c (pp : PParams) (cls : NormClass) (a : Bool) (x : Tensor) :
    (normEval pp cls a x).c = x.c := by cases cls <;> rfl
@[simp] theorem normEval_h (pp : PParams) (cls : NormClass) (a : Bool) (x : Tensor) :
    (normEval pp cls a x).h = x.h := by cases cls <;> rfl
@[simp] theorem normEval_w (pp : PParams) (cls : NormClass) (a : Bool) (x : Tensor) :
    (normEval pp cls a x).w = x.w := by cases cls <;> rfl

@[simp] theorem catC_n (x y : Tensor) : (catC x y).n = x.n := rfl
@[simp] theorem catC_c (x y : Tensor) : (catC x y).c = x.c + y.c := rfl
@[simp] theorem catC_h (x y : Tensor) : (catC x y).h = y.h := rfl
@[simp] theorem catC_w (x y : Tensor) : (catC x y).w = y.w := rfl

@[simp] theorem addT_n (x y : Tensor) : (addT x y).n = x.n := rfl
@[simp] theorem addT_c (x y : Tensor) : (addT x y).c = x.c := rfl
@[simp] theorem addT_h (x y : Tensor) : (addT x y).h = x.h := rfl
@[simp] theorem addT_w (x y : Tensor) : (addT x y).w = x.w := rfl

@[simp] theorem smoothEval_n (x : Tensor) : (smoothEval x).n = x.n := rfl
@[simp] theorem smoothEval_c (x : Tensor) : (smoothEval x).c = x.c := rfl
@[simp] theorem smoothEval_h (x : Tensor) : (smoothEval x).h = x.h := rfl
@[simp] theorem smoothEval_w (x : Tensor) : (smoothEval x).w = x.w := rfl

@[simp] theorem bilinearUpEval_n (s : ℕ) (x : Tensor) : (bilinearUpEval s x).n = x.n := rfl
@[simp] theorem bilinearUpEval_c (s : ℕ) (x : Tensor) : (bilinearUpEval s x).c = x.c := rfl
@[simp] theorem bilinearUpEval_h (s : ℕ) (x : Tensor) : (bilinearUpEval s x).h = s * x.h := rfl
@[simp] theorem bilinearUpEval_w (s : ℕ) (x : Tensor) : (bilinearUpEval s x).w = s * x.w := rfl

@[simp] theorem geluEval_n (x : Tensor) : (geluEval x).n = x.n := rfl
@[simp] theorem geluEval_c (x : Tensor) : (geluEval x).c = x.c := rfl
@[simp] theorem geluEval_h (x : Tensor) : (geluEval x).h = x.h := rfl
@[simp] theorem geluEval_w (x : Tensor) : (geluEval x).w = x.w := rfl

@[simp] theorem upsampleEval_n (θ : Env) (p : List ℕ) (ic oc s : ℕ) (x : Tensor) :
    (upsampleEval θ p ic oc s x).n = x.n := rfl
@[simp] theorem upsampleEval_c (θ : Env) (p : List ℕ) (ic oc s : ℕ) (x : Tensor) :
    (upsampleEval θ p ic oc s x).c = oc := rfl

theorem upsampleEval_h (θ : Env) (p : List ℕ) (ic oc : ℕ) (x : Tensor)
    (h1 : 1 ≤ x.h) : (upsampleEval θ p ic oc 2 x).h = 2 * x.h := by
  show ((((2 * x.h + 2 * 1 - 3) / 1 + 1 + 2 * 0 - 1) / 1 + 1 + 2 * 0 - 1) / 1 + 1) = 2 * x.h
  omega

theorem upsampleEval_w (θ : Env) (p : List ℕ) (ic oc : ℕ) (x : Tensor)
    (h1 : 1 ≤ x.w) : (upsampleEval θ p ic oc 2 x).w = 2 * x.w := by
  show ((((2 * x.w + 2 * 1 - 3) / 1 + 1 + 2 * 0 - 1) / 1 + 1 + 2 * 0 - 1) / 1 + 1) = 2 * x.w
  omega

/-! ## Shape propagation through the nested blocks -/

/-- A non-outermost subtree behaves, for shapes, like the U-Net contract
demands: on inputs whose spatial sizes are positive multiples of `2 ^ k`
it preserves batch and spatial sizes and adds `cadd` channels (its own
`outer_nc`, concatenated by the skip connection). -/
def BlockOk (θ : Env) (cadd k : ℕ) (sub : Layer) : Prop :=
  ∀ (p : List ℕ) (x : Tensor) (mh mw : ℕ), x.h = 2 ^ k * mh → x.w = 2 ^ k * mw →
    1 ≤ mh → 1 ≤ mw →
    (evalL θ sub p x).n = x.n ∧ (evalL θ sub p x).c = x.c + cadd
      ∧ (evalL θ sub p x).h = x.h ∧ (evalL θ sub p x).w = x.w

theorem blockOk_inner (θ : Env) (g : ℕ) (arg : NormArg) :
    BlockOk θ (g * 8) 1 (innerBlock g arg) := by
  intro p x mh mw hh hw h1 h2
  have hh2 : x.h = 2 * mh := by simpa using hh
  have hw2 : x.w = 2 * mw := by simpa using hw
  simp [innerBlock, unetSkipConnectionBlock, hh2, hw2]
  omega

theorem blockOk_mid (θ : Env) (g k : ℕ) (arg : NormArg) (ud : Bool) (sub : Layer)
    (hsub : BlockOk θ (g * 8) k sub) :
    BlockOk θ (g * 8) (k + 1) (midBlock g arg ud sub) := by
  intro p x mh mw hh hw h1 h2
  have hp : 1 ≤ 2 ^ k := Nat.one_le_two_pow
  have hh2 : x.h = 2 ^ k * mh * 2 := by rw [hh, pow_succ]; ring
  have hw2 : x.w = 2 ^ k * mw * 2 := by rw [hw, pow_succ]; ring
  have hmh : 1 ≤ 2 ^ k * mh := Nat.one_le_iff_ne_zero.mpr (by positivity)
  have hmw : 1 ≤ 2 ^ k * mw := Nat.one_le_iff_ne_zero.mpr (by positivity)
  obtain ⟨e1, e2, e3, e4⟩ := hsub (p ++ [3])
    (normEval (θ (p ++ [2])) arg.cls arg.affine
      (conv2dEval (θ (p ++ [1])) (g * 8) (g * 8) 4 2 1 (useBias arg)
        (leakyReluEval x))) mh mw
    (by simp [hh2]; omega) (by simp [hw2]; omega) h1 h2
  cases ud <;>
    (simp [midBlock, unetSkipConnectionBlock, e1, e2, e3, e4, hh2, hw2]; omega)

theorem blockOk_midSw (θ : Env) (g k : ℕ) (arg : NormArg) (ud : Bool) (sub : Layer)
    (hsub : BlockOk θ (g * 8) k sub) :
    BlockOk θ (g * 8) (k + 1) (midBlockSw g arg ud sub) := by
  intro p x mh mw hh hw h1 h2
  have hp : 1 ≤ 2 ^ k := Nat.one_le_two_pow
  have hh2 : x.h = 2 ^ k * mh * 2 := by rw [hh, pow_succ]; ring
  have hw2 : x.w = 2 ^ k * mw * 2 := by rw [hw, pow_succ]; ring
  have hmh : 1 ≤ 2 ^ k * mh := Nat.one_le_iff_ne_zero.mpr (by positivity)
  have hmw : 1 ≤ 2 ^ k * mw := Nat.one_le_iff_ne_zero.mpr (by positivity)
  obtain ⟨e1, e2, e3, e4⟩ := hsub (p ++ [3])
    (normEval (θ (p ++ [2])) arg.cls arg.affine
      (conv2dEval (θ (p ++ [1])) (g * 8) (g * 8) 4 2 1 (useBias arg)
        (leakyReluEval x))) mh mw
    (by simp [hh2]; omega) (by simp [hw2]; omega) h1 h2
  cases ud <;>
    (simp [midBlockSw, setAt, List.set, midBlock, unetSkipConnectionBlock,
      upsampleEval, e1, e2, e3, e4, hh2, hw2]; omega)

theorem blockOk_b3Sw (θ : Env) (g k : ℕ) (arg : NormArg) (sub : Layer)
    (hsub : BlockOk θ (g * 8) k sub) :
    BlockOk θ (g * 4) (k + 1) (b3BlockSw g arg sub) := by
  intro p x mh mw hh hw h1 h2
  have hp : 1 ≤ 2 ^ k := Nat.one_le_two_pow
  have hh2 : x.h = 2 ^ k * mh * 2 := by rw [hh, pow_succ]; ring
  have hw2 : x.w = 2 ^ k * mw * 2 := by rw [hw, pow_succ]; ring
  have hmh : 1 ≤ 2 ^ k * mh := Nat.one_le_iff_ne_zero.mpr (by positivity)
  have hmw : 1 ≤ 2 ^ k * mw := Nat.one_le_iff_ne_zero.mpr (by positivity)
  obtain ⟨e1, e2, e3, e4⟩ := hsub (p ++ [3])
    (normEval (θ (p ++ [2])) arg.cls arg.affine
      (conv2dEval (θ (p ++ [1])) (g * 4) (g * 8) 4 2 1 (useBias arg)
        (leakyReluEval x))) mh mw
    (by simp [hh2]; omega) (by simp [hw2]; omega) h1 h2
  simp [b3BlockSw, setAt, List.set, b3Block, unetSkipConnectionBlock,
    upsampleEval, e1, e2, e3, e4, hh2, hw2]
  omega

theorem blockOk_b2Sw (θ : Env) (g k : ℕ) (arg : NormArg) (sub : Layer)
    (hsub : BlockOk θ (g * 4) k sub) :
    BlockOk θ (g * 2) (k + 1) (b2BlockSw g arg sub) := by
  intro p x mh mw hh hw h1 h2
  have hp : 1 ≤ 2 ^ k := Nat.one_le_two_pow
  have hh2 : x.h = 2 ^ k * mh * 2 := by rw [hh, pow_succ]; ring
  have hw2 : x.w = 2 ^ k * mw * 2 := by rw [hw, pow_succ]; ring
  have hmh : 1 ≤ 2 ^ k * mh := Nat.one_le_iff_ne_zero.mpr (by positivity)
  have hmw : 1 ≤ 2 ^ k * mw := Nat.one_le_iff_ne_zero.mpr (by positivity)
  obtain ⟨e1, e2, e3, e4⟩ := hsub (p ++ [3])
    (normEval (θ (p ++ [2])) arg.cls arg.affine
      (conv2dEval (θ (p ++ [1])) (g * 2) (g * 4) 4 2 1 (useBias arg)
        (leakyReluEval x))) mh mw
    (by simp [hh2]; omega) (by simp [hw2]; omega) h1 h2
  simp [b2BlockSw, setAt, List.set, b2Block, unetSkipConnectionBlock,
    upsampleEval, e1, e2, e3, e4, hh2, hw2]
  omega

theorem blockOk_b1Sw (θ : Env) (g k : ℕ) (arg : NormArg) (sub : Layer)
    (hsub : BlockOk θ (g * 2) k sub) :
    BlockOk θ g (k + 1) (b1BlockSw g arg sub) := by
  intro p x mh mw hh hw h1 h2
  have hp : 1 ≤ 2 ^ k := Nat.one_le_two_pow
  have hh2 : x.h = 2 ^ k * mh * 2 := by rw [hh, pow_succ]; ring
  have hw2 : x.w = 2 ^ k * mw * 2 := by rw [hw, pow_succ]; ring
  have hmh : 1 ≤ 2 ^ k * mh := Nat.one_le_iff_ne_zero.mpr (by positivity)
  have hmw : 1 ≤ 2 ^ k * mw := Nat.one_le_iff_ne_zero.mpr (by positivity)
  obtain ⟨e1, e2, e3, e4⟩ := hsub (p ++ [3])
    (normEval (θ (p ++ [2])) arg.cls arg.affine
      (conv2dEval (θ (p ++ [1])) g (g * 2) 4 2 1 (useBias arg)
        (leakyReluEval x))) mh mw
    (by simp [hh2]; omega) (by simp [hw2]; omega) h1 h2
  simp [b1BlockSw, setAt, List.set, b1Block, unetSkipConnectionBlock,
    upsampleEval, e1, e2, e3, e4, hh2, hw2]
  omega

theorem outerBlock_shape (θ : Env) (i o g k : ℕ) (arg : NormArg) (sub : Layer)
    (hsub : BlockOk θ g k sub) :
    ∀ (p : List ℕ) (x : Tensor) (mh mw : ℕ),
      x.h = 2 ^ (k + 1) * mh → x.w = 2 ^ (k + 1) * mw → 1 ≤ mh → 1 ≤ mw →
      (evalL θ (outerBlock i o g arg sub) p x).n = x.n
        ∧ (evalL θ (outerBlock i o g arg sub) p x).c = o
        ∧ (evalL θ (outerBlock i o g arg sub) p x).h = x.h
        ∧ (evalL θ (outerBlock i o g arg sub) p x).w = x.w := by
  intro p x mh mw hh hw h1 h2
  have hp : 1 ≤ 2 ^ k := Nat.one_le_two_pow
  have hh2 : x.h = 2 ^ k * mh * 2 := by rw [hh, pow_succ]; ring
  have hw2 : x.w = 2 ^ k * mw * 2 := by rw [hw, pow_succ]; ring
  have hmh : 1 ≤ 2 ^ k * mh := Nat.one_le_iff_ne_zero.mpr (by positivity)
  have hmw : 1 ≤ 2 ^ k * mw := Nat.one_le_iff_ne_zero.mpr (by positivity)
  obtain ⟨e1, e2, e3, e4⟩ := hsub (p ++ [1])
    (conv2dEval (θ (p ++ [0])) i g 4 2 1 (useBias arg) x) mh mw
    (by simp [hh2]; omega) (by simp [hw2]; omega) h1 h2
  simp [outerBlock, unetSkipConnectionBlock, e1, e2, e3, e4, hh2, hw2]
  omega

/-! ## Remaining shared lemmas -/

theorem tanh_mem_Ioo (t : ℝ) : -1 < Real.tanh t ∧ Real.tanh t < 1 := by
  have hc := Real.cosh_pos t
  rw [Real.tanh_eq_sinh_div_cosh]
  constructor
  · rw [lt_div_iff₀ hc]
    have h := Real.sinh_lt_cosh (-t)
    rw [Real.sinh_neg, Real.cosh_neg] at h
    linarith
  · rw [div_lt_one hc]
    exact Real.sinh_lt_cosh t

@[simp] theorem mapT_data (f : ℝ → ℝ) (x : Tensor) (b c i j : ℕ) :
    (mapT f x).data b c i j = f (x.data b c i j) := rfl

@[simp] theorem tanhEval_data (x : Tensor) (b c i j : ℕ) :
    (tanhEval x).data b c i j = Real.tanh (x.data b c i j) := rfl

/-- The outermost `Sequential` ends in `nn.Tanh()`, so the block tree's
output is an elementwise `tanh` of the preceding computation. -/
theorem evalL_postSwap_tanh (θ : Env) (i o g n : ℕ) (arg : NormArg) (ud : Bool)
    (z : Tensor) :
    ∃ y, evalL θ (postSwapModel i o g n arg ud) [] z = tanhEval y := ⟨_, rfl⟩

theorem blockOk_midChain (θ : Env) (g : ℕ) (arg : NormArg) (ud : Bool) :
    ∀ n, BlockOk θ (g * 8) (n + 1) ((midBlock g arg ud)^[n] (innerBlock g arg)) := by
  intro n
  induction n with
  | zero => simpa using blockOk_inner θ g arg
  | succ k ih =>
    rw [Function.iterate_succ_apply']
    exact blockOk_mid θ g (k + 1) arg ud _ ih

theorem blockOk_postSwapSub (θ : Env) (g n : ℕ) (arg : NormArg) (ud : Bool) :
    BlockOk θ g (n + 7)
      (b1BlockSw g arg
        (b2BlockSw g arg
          (b3BlockSw g arg
            (midBlockSw g arg ud
              (midBlockSw g arg ud
                (midBlockSw g arg ud
                  ((midBlock g arg ud)^[n] (innerBlock g arg)))))))) := by
  have h0 := blockOk_midChain θ g arg ud n
  have h1 := blockOk_midSw θ g (n + 1) arg ud _ h0
  have h2 := blockOk_midSw θ g (n + 2) arg ud _ h1
  have h3 := blockOk_midSw θ g (n + 3) arg ud _ h2
  have h4 := blockOk_b3Sw θ g (n + 4) arg _ h3
  have h5 := blockOk_b2Sw θ g (n + 5) arg _ h4
  exact blockOk_b1Sw θ g (n + 6) arg _ h5

/-- After the swap, the six outermost non-outermost upsampling slots hold
`Upsample` modules carrying the channel pairs of the transposed
convolutions that stood there. -/
theorem postSwap_upEntries (i o g n : ℕ) (arg : NormArg) (ud : Bool) :
    (List.range 6).map
        (fun j => (atIdx (postSwapModel i o g n arg ud) 1).bind (upEntryAt j))
      = [some (Layer.upsampleM (g * 2 * 2) g 2),
         some (Layer.upsampleM (g * 4 * 2) (g * 2) 2),
         some (Layer.upsampleM (g * 8 * 2) (g * 4) 2),
         some (Layer.upsampleM (g * 8 * 2) (g * 8) 2),
         some (Layer.upsampleM (g * 8 * 2) (g * 8) 2),
         some (Layer.upsampleM (g * 8 * 2) (g * 8) 2)] := by
  cases ud <;>
    simp [postSwapModel, outerBlock, b1BlockSw, b2BlockSw, b3BlockSw, midBlockSw,
      b1Block, b2Block, b3Block, midBlock, unetSkipConnectionBlock, setAt, List.set,
      List.range_succ, upEntryAt, descend3, atIdx]

/-- Before the swap, the same six slots hold the stride-2 4x4 transposed
convolutions. -/
theorem preSwap_upEntries (i o g n : ℕ) (arg : NormArg) (ud : Bool) :
    (List.range 6).map
        (fun j => (atIdx (buildUnetBlocks i o (n + 8) g arg ud) 1).bind (upEntryAt j))
      = [some (Layer.convT2d (g * 2 * 2) g 4 2 1 (useBias arg)),
         some (Layer.convT2d (g * 4 * 2) (g * 2) 4 2 1 (useBias arg)),
         some (Layer.convT2d (g * 8 * 2) (g * 4) 4 2 1 (useBias arg)),
         some (Layer.convT2d (g * 8 * 2) (g * 8) 4 2 1 (useBias arg)),
         some (Layer.convT2d (g * 8 * 2) (g * 8) 4 2 1 (useBias arg)),
         some (Layer.convT2d (g * 8 * 2) (g * 8) 4 2 1 (useBias arg))] := by
  have h35 : n + 8 - 5 = n + 3 := by omega
  have hiter : (midBlock g arg ud)^[n + 3] (innerBlock g arg)
      = midBlock g arg ud (midBlock g arg ud (midBlock g arg ud
          ((midBlock g arg ud)^[n] (innerBlock g arg)))) := by
    rw [Function.iterate_succ_apply', Function.iterate_succ_apply',
      Function.iterate_succ_apply']
  cases ud <;>
    simp [buildUnetBlocks, h35, hiter, outerBlock, b1Block, b2Block, b3Block,
      midBlock, unetSkipConnectionBlock, List.range_succ, upEntryAt, descend3, atIdx]

/-- Exactly six `Upsample` modules exist in the swapped graph. -/
theorem postSwap_countUp (i o g n : ℕ) (arg : NormArg) (ud : Bool) :
    countUp (postSwapModel i o g n arg ud) = 6 := by
  cases ud <;>
    simp [postSwapModel, outerBlock, b1BlockSw, b2BlockSw, b3BlockSw, midBlockSw,
      b1Block, b2Block, b3Block, midBlock, unetSkipConnectionBlock, setAt, List.set,
      countUp, countUp_midChain]

/-- The outermost block's own upsampling convolution (`model[3]`) is left
untouched by the swap. -/
theorem postSwap_outer_upconv (i o g n : ℕ) (arg : NormArg) (ud : Bool) :
    atIdx (postSwapModel i o g n arg ud) 3
      = some (Layer.convT2d (g * 2) o 4 2 1 true) := by
  cases ud <;> rfl

/-! ## Concrete inputs used by the witnesses -/

/-- The `norm_layer` the generator is used with in `create_model`:
`functools.partial(nn.InstanceNorm2d, affine=False, ...)`. -/
def argInstance : NormArg := NormArg.applied NormClass.instanceNorm2d false

/-- The all-zero parameter environment. -/
noncomputable def envZero : Env :=
  fun _ => ⟨fun _ _ _ _ => 0, fun _ => 0, fun _ => 0, fun _ => 0, fun _ => 0, fun _ => 0⟩

/-- A `1 x 1 x 1 x 1` zero tensor. -/
noncomputable def tensorOne : Tensor := ⟨1, 1, 1, 1, fun _ _ _ _ => 0⟩

/-- A `1 x 1 x 3 x 3` zero tensor. -/
noncomputable def tensorThree : Tensor := ⟨1, 1, 3, 3, fun _ _ _ _ => 0⟩

/-- A `1 x 3 x 256 x 256` zero tensor (a valid input for depth 8). -/
noncomputable def tensor256 : Tensor := ⟨1, 3, 256, 256, fun _ _ _ _ => 0⟩

/-! ## Claim theorems -/

/-- C1 (counterexample): the claim asserts construction succeeds for every
depth ≥ 6, but at depth 6 the replacement loop reaches the innermost
block (whose `model` has only five entries) and the `base.model[5]`
access raises `IndexError`: the constructor fails. -/
theorem claim1_counterexample :
    unetGeneratorInit 3 1 6 64 argInstance false = none := rfl

/-- C1 (amended): for every depth `n + 8` (and any channel counts, width,
normalization argument and dropout flag), `UnetGenerator.__init__`
succeeds, producing `postSwapModel`; the swapped graph contains exactly 6
`Upsample` modules, they sit in the upsampling slots (`model[5]`) of the 6
outermost non-outermost blocks, and the outermost block's own upsampling
convolution is still the stride-2 4x4 `ConvTranspose2d`. -/
theorem claim1_replaces_six_upconvs (i o g n : ℕ) (arg : NormArg) (ud : Bool) :
    unetGeneratorInit i o (n + 8) g arg ud = some (postSwapModel i o g n arg ud)
    ∧ countUp (postSwapModel i o g n arg ud) = 6
    ∧ (List.range 6).map
        (fun j => (atIdx (postSwapModel i o g n arg ud) 1).bind (upEntryAt j))
      = [some (Layer.upsampleM (g * 2 * 2) g 2),
         some (Layer.upsampleM (g * 4 * 2) (g * 2) 2),
         some (Layer.upsampleM (g * 8 * 2) (g * 4) 2),
         some (Layer.upsampleM (g * 8 * 2) (g * 8) 2),
         some (Layer.upsampleM (g * 8 * 2) (g * 8) 2),
         some (Layer.upsampleM (g * 8 * 2) (g * 8) 2)]
    ∧ atIdx (postSwapModel i o g n arg ud) 3
        = some (Layer.convT2d (g * 2) o 4 2 1 true) :=
  ⟨init_eq_postSwap i o g n arg ud, postSwap_countUp i o g n arg ud,
    postSwap_upEntries i o g n arg ud, postSwap_outer_upconv i o g n arg ud⟩

/-- C2: for every constructed generator (depth `n + 8`, any width,
normalization and dropout flag, any parameters) and every input of shape
`(N, 3, H, W)` with `H` and `W` positive multiples of `2 ^ depth`,
`UnetGenerator.forward` returns a tensor of shape `(N, 1, H, W)`. -/
theorem claim2_forward_shape (g n : ℕ) (arg : NormArg) (ud : Bool) (θ : Env)
    (m : Layer) (x : Tensor) (mh mw : ℕ)
    (hm : unetGeneratorInit 3 1 (n + 8) g arg ud = some m)
    (_hc : x.c = 3) (hh : x.h = 2 ^ (n + 8) * mh) (hw : x.w = 2 ^ (n + 8) * mw)
    (h1 : 1 ≤ mh) (h2 : 1 ≤ mw) :
    shapeOf (unetGeneratorForward θ m x) = (x.n, 1, x.h, x.w) := by
  rw [init_eq_postSwap] at hm
  have hm2 : m = postSwapModel 3 1 g n arg ud := by
    injection hm with h
    exact h.symm
  subst hm2
  obtain ⟨e1, e2, e3, e4⟩ := outerBlock_shape θ 3 1 g (n + 7) arg _
    (blockOk_postSwapSub θ g n arg ud) []
    (mapT (fun v => (v - 1 / 2) * 2) x) mh mw (by simpa using hh)
    (by simpa using hw) h1 h2
  simp [unetGeneratorForward, shapeOf, postSwapModel] at e1 e2 e3 e4 ⊢
  simp [e1, e2, e3, e4]

/-- C2 witness: depth 8, `ngf = 1`, a `1 x 3 x 256 x 256` input. -/
theorem claim2_forward_shape_witness :
    2 ^ (0 + 8) * 1 = 256
    ∧ shapeOf (unetGeneratorForward envZero (postSwapModel 3 1 1 0 argInstance false)
        tensor256) = (1, 1, 256, 256) :=
  ⟨by norm_num,
    claim2_forward_shape 1 0 argInstance false envZero _ tensor256 1 1
      (init_eq_postSwap 3 1 1 0 argInstance false) rfl (by norm_num [tensor256])
      (by norm_num [tensor256]) le_rfl le_rfl⟩

/-- C3: every element of the tensor `UnetGenerator.forward` returns lies
in `[0, 1]`: the outermost block ends in `Tanh`, and `forward` applies
`y ↦ (y + 1) / 2`.  Holds for every constructed generator, every
parameter environment, every input tensor and every index. -/
theorem claim3_output_range (g n : ℕ) (arg : NormArg) (ud : Bool) (θ : Env)
    (m : Layer) (x : Tensor) (b c i j : ℕ)
    (hm : unetGeneratorInit 3 1 (n + 8) g arg ud = some m) :
    0 ≤ (unetGeneratorForward θ m x).data b c i j
      ∧ (unetGeneratorForward θ m x).data b c i j ≤ 1 := by
  rw [init_eq_postSwap] at hm
  have hm2 : m = postSwapModel 3 1 g n arg ud := by
    injection hm with h
    exact h.symm
  subst hm2
  obtain ⟨y, hy⟩ := evalL_postSwap_tanh θ 3 1 g n arg ud
    (mapT (fun v => (v - 1 / 2) * 2) x)
  have hd : (unetGeneratorForward θ (postSwapModel 3 1 g n arg ud) x).data b c i j
      = (Real.tanh (y.data b c i j) + 1) / 2 := by
    rw [show unetGeneratorForward θ (postSwapModel 3 1 g n arg ud) x
        = mapT (fun v => (v + 1) / 2)
            (evalL θ (postSwapModel 3 1 g n arg ud) []
              (mapT (fun v => (v - 1 / 2) * 2) x)) from rfl, hy]
    simp
  rw [hd]
  obtain ⟨hl, hu⟩ := tanh_mem_Ioo (y.data b c i j)
  constructor <;> linarith

/-- C3 witness: depth 8, `ngf = 1`, the zero parameter environment, a
`1 x 1 x 1 x 1` input, element `(0,0,0,0)`. -/
theorem claim3_output_range_witness :
    unetGeneratorInit 3 1 (0 + 8) 1 argInstance false
        = some (postSwapModel 3 1 1 0 argInstance false)
    ∧ (0 ≤ (unetGeneratorForward envZero (postSwapModel 3 1 1 0 argInstance false)
          tensorOne).data 0 0 0 0
        ∧ (unetGeneratorForward envZero (postSwapModel 3 1 1 0 argInstance false)
          tensorOne).data 0 0 0 0 ≤ 1) :=
  ⟨init_eq_postSwap 3 1 1 0 argInstance false,
    claim3_output_range 1 0 argInstance false envZero _ tensorOne 0 0 0 0
      (init_eq_postSwap 3 1 1 0 argInstance false)⟩

/-- C4: `UnetSkipConnectionBlock.forward` returns `self.model(x)` when
`outermost` and `torch.cat([x, self.model(x)], 1)` otherwise; the
concatenation keeps the input channels first and appends the processed
channels, so a non-outermost block's output channel count is the input
channel count plus the processed-path channel count. -/
theorem claim4_skip_connection (θ : Env) (p : List ℕ) (ls : List Layer)
    (x y : Tensor) (b c i j : ℕ) :
    evalL θ (Layer.seqBlock true ls) p x = evalSeq θ ls p 0 x
    ∧ evalL θ (Layer.seqBlock false ls) p x = catC x (evalSeq θ ls p 0 x)
    ∧ (evalL θ (Layer.seqBlock false ls) p x).c = x.c + (evalSeq θ ls p 0 x).c
    ∧ (catC x y).data b c i j
        = (if c < x.c then x.data b c i j else y.data b (c - x.c) i j)
    ∧ (catC x y).c = x.c + y.c :=
  ⟨rfl, rfl, rfl, rfl, rfl⟩

/-- C5: for every depth `n + 5`, the recursive construction builds
exactly `n + 5` nested stages, innermost last in the outermost-first
listing: the outermost block (input channels to `ngf`, upconv to
`output_nc`), three width-halving blocks, `n = depth - 5` intermediate
blocks at width `ngf * 8`, and one innermost block at width `ngf * 8`
with no nested submodule. -/
theorem claim5_recursive_structure (i o g n : ℕ) (arg : NormArg) (ud : Bool) :
    stagesOf (buildUnetBlocks i o (n + 5) g arg ud)
      = [(true, some (i, g), some (g * 2, o), true),
         (false, some (g, g * 2), some (g * 2 * 2, g), true),
         (false, some (g * 2, g * 4), some (g * 4 * 2, g * 2), true),
         (false, some (g * 4, g * 8), some (g * 8 * 2, g * 4), true)]
        ++ List.replicate n (false, some (g * 8, g * 8), some (g * 8 * 2, g * 8), true)
        ++ [(false, some (g * 8, g * 8), some (g * 8, g * 8), false)]
      ∧ (stagesOf (buildUnetBlocks i o (n + 5) g arg ud)).length = n + 5 := by
  have h5 : n + 5 - 5 = n := by omega
  have hmain : stagesOf (buildUnetBlocks i o (n + 5) g arg ud)
      = [(true, some (i, g), some (g * 2, o), true),
         (false, some (g, g * 2), some (g * 2 * 2, g), true),
         (false, some (g * 2, g * 4), some (g * 4 * 2, g * 2), true),
         (false, some (g * 4, g * 8), some (g * 8 * 2, g * 4), true)]
        ++ List.replicate n (false, some (g * 8, g * 8), some (g * 8 * 2, g * 8), true)
        ++ [(false, some (g * 8, g * 8), some (g * 8, g * 8), false)] := by
    rw [buildUnetBlocks, h5]
    obtain ⟨ls, h⟩ := midChain_isBlock g arg ud n
    have hmid := stages_midChain g arg ud n
    rw [h] at hmid ⊢
    simp [outerBlock, b1Block, b2Block, b3Block, unetSkipConnectionBlock,
      stagesOf, stagesSub, downConvOf, upConvOf, hasSubL]
    exact hmid
  refine ⟨hmain, ?_⟩
  rw [hmain]
  simp

/-- C6 (counterexample): with the block's default `norm_layer`
(`nn.BatchNorm2d`, which has learned affine parameters), the outermost
block's upsampling convolution is created without a bias argument and
carries the framework-default bias — so "bias iff the normalization lacks
affine parameters" fails for it. -/
theorem claim6_counterexample :
    ¬ (∀ cv ∈ createdConvs (unetSkipConnectionBlock 1 1 none (some Layer.reluL)
          true false (NormArg.plain NormClass.batchNorm2d) false),
        cv.2.2 = !(NormArg.plain NormClass.batchNorm2d).affine) := by
  decide

/-- C6 (amended): every convolution a block creates receives
`bias = use_bias`, except the outermost block's upsampling convolution,
which always has a bias; `use_bias` is exactly "the norm class (or the
partial's `func`) is `InstanceNorm2d`", which coincides with "the
normalization lacks learned affine parameters" for plain classes at
their default `affine` setting (but not for a `partial` overriding
`affine`). -/
theorem claim6_bias_rule (arg : NormArg) (o i : ℕ) (inp : Option ℕ) (som : Bool)
    (sls : List Layer) (sub : Option Layer) (ud : Bool) :
    createdConvs (unetSkipConnectionBlock o i inp
        (some (Layer.seqBlock som sls)) false false arg ud)
      = [(inp.getD o, i, useBias arg), (i * 2, o, useBias arg)]
    ∧ createdConvs (unetSkipConnectionBlock o i inp sub false true arg ud)
      = [(inp.getD o, i, useBias arg), (i, o, useBias arg)]
    ∧ createdConvs (unetSkipConnectionBlock o i inp
        (some (Layer.seqBlock som sls)) true false arg ud)
      = [(inp.getD o, i, useBias arg), (i * 2, o, true)]
    ∧ useBias arg = decide (arg.cls = NormClass.instanceNorm2d)
    ∧ (∀ cls, useBias (NormArg.plain cls) = !cls.defaultAffine) := by
  refine ⟨?_, ?_, ?_, rfl, ?_⟩
  · cases ud <;> simp [unetSkipConnectionBlock, createdConvs]
  · cases ud <;> simp [unetSkipConnectionBlock, createdConvs]
  · cases ud <;> simp [unetSkipConnectionBlock, createdConvs]
  · intro cls
    cases cls <;> rfl

/-- C7: when the weight file does not exist, `load_weights` raises no
exception: it returns `ok`, prints the two warning lines, and leaves
every parameter exactly as initialized. -/
theorem claim7_missing_weight_file (fsExists : String → Bool)
    (disk : String → List (String × ℤ)) (cdir : String)
    (params : List (String × ℤ))
    (h : fsExists (checkpointPath cdir defaultModelPath) = false) :
    load_weights fsExists disk cdir defaultModelPath params
      = Except.ok (params,
          [warnHeader, warnBody (checkpointPath cdir defaultModelPath)]) := by
  simp [load_weights, h]

/-- C7 witness: empty filesystem, module directory `""`, fresh empty
parameter list. -/
theorem claim7_missing_weight_file_witness :
    (fun _ => false : String → Bool) (checkpointPath "" defaultModelPath) = false
    ∧ load_weights (fun _ => false) (fun _ => []) "" defaultModelPath []
        = Except.ok ([], [warnHeader, warnBody (checkpointPath "" defaultModelPath)]) :=
  ⟨rfl, claim7_missing_weight_file (fun _ => false) (fun _ => []) "" [] rfl⟩

/-- C8: `Upsample.forward` computes, in order, 2x bilinear upsampling,
the fixed `Smooth` blur, the learned 3x3 stride-1 convolution giving
`conv_output`, then the residual ratio-4 bottleneck `mlp` (1x1 conv,
GELU, 1x1 conv), returning exactly `conv_output + mlp(conv_output)`;
with positive input sizes the result has shape
`(N, outc, 2 * H, 2 * W)`. -/
theorem claim8_upsample_forward (θ : Env) (p : List ℕ) (ic oc : ℕ) (x : Tensor)
    (h1 : 1 ≤ x.h) (h2 : 1 ≤ x.w) :
    upsampleEval θ p ic oc 2 x
      = addT
          (conv2dEval (θ (p ++ [3, 2])) (4 * oc) oc 1 1 0 true
            (geluEval (conv2dEval (θ (p ++ [3, 0])) oc (4 * oc) 1 1 0 true
              (conv2dEval (θ (p ++ [2])) ic oc 3 1 1 true
                (smoothEval (bilinearUpEval 2 x))))))
          (conv2dEval (θ (p ++ [2])) ic oc 3 1 1 true
            (smoothEval (bilinearUpEval 2 x)))
    ∧ (∀ b c i j, (upsampleEval θ p ic oc 2 x).data b c i j
        = (conv2dEval (θ (p ++ [2])) ic oc 3 1 1 true
            (smoothEval (bilinearUpEval 2 x))).data b c i j
          + (conv2dEval (θ (p ++ [3, 2])) (4 * oc) oc 1 1 0 true
              (geluEval (conv2dEval (θ (p ++ [3, 0])) oc (4 * oc) 1 1 0 true
                (conv2dEval (θ (p ++ [2])) ic oc 3 1 1 true
                  (smoothEval (bilinearUpEval 2 x)))))).data b c i j)
    ∧ shapeOf (upsampleEval θ p ic oc 2 x) = (x.n, oc, 2 * x.h, 2 * x.w) := by
  refine ⟨rfl, fun b c i j => add_comm _ _, ?_⟩
  simp [shapeOf, upsampleEval_h θ p ic oc x h1, upsampleEval_w θ p ic oc x h2]

/-- C8 witness: `inc = outc = 1`, zero parameters, a `1 x 1 x 1 x 1`
input. -/
theorem claim8_upsample_forward_witness :
    1 ≤ tensorOne.h
    ∧ shapeOf (upsampleEval envZero [] 1 1 2 tensorOne) = (1, 1, 2, 2) :=
  ⟨le_rfl, (claim8_upsample_forward envZero [] 1 1 tensorOne le_rfl le_rfl).2.2⟩

/-- C9: `Smooth.forward` preserves the `(B, C, H, W)` shape, and each
in-range channel is convolved independently with the fixed normalized
3x3 kernel under replication padding; the kernel's entries sum to 1. -/
theorem claim9_smooth (x : Tensor) (b c i j : ℕ) (hc : c < x.c) :
    shapeOf (smoothEval x) = shapeOf x
    ∧ (smoothEval x).data b c i j
        = ∑ ki ∈ Finset.range 3, ∑ kj ∈ Finset.range 3,
            smoothKernel ki kj
              * x.data b c (min (i + ki - 1) (x.h - 1)) (min (j + kj - 1) (x.w - 1))
    ∧ (∑ ki ∈ Finset.range 3, ∑ kj ∈ Finset.range 3, smoothKernel ki kj) = 1 := by
  have hC : 0 < x.c := Nat.pos_of_ne_zero (by omega)
  have hdiv : (b * x.c + c) / x.c = b := by
    rw [Nat.add_comm, Nat.add_mul_div_right _ _ hC, Nat.div_eq_of_lt hc]
    omega
  have hmod : (b * x.c + c) % x.c = c := by
    rw [Nat.add_comm, Nat.add_mul_mod_self_right, Nat.mod_eq_of_lt hc]
  have hS : smoothKernelSum = 16 := by
    simp [smoothKernelSum, smoothKernelRaw, Finset.sum_range_succ]
    norm_num
  refine ⟨rfl, ?_, ?_⟩
  · simp [smoothEval, repPad1, hdiv, hmod]
  · simp [smoothKernel, hS, ← Finset.sum_div, smoothKernelRaw, Finset.sum_range_succ]
    norm_num

/-- C9 witness: a `1 x 1 x 3 x 3` input, channel 0. -/
theorem claim9_smooth_witness :
    0 < tensorThree.c
    ∧ (∑ ki ∈ Finset.range 3, ∑ kj ∈ Finset.range 3, smoothKernel ki kj) = 1 :=
  ⟨Nat.one_pos, (claim9_smooth tensorThree 0 0 0 0 Nat.one_pos).2.2⟩

/-- C10: each `Upsample` is constructed with exactly the
`(in_channels, out_channels)` of the `ConvTranspose2d` it replaces (the
six slot listings pair up), its `scale_factor` is the default 2, and on
positive-size inputs a stride-2 4x4 padding-1 transposed convolution and
an `Upsample` produce identical output shapes, doubling both spatial
sizes — so every stage-boundary shape is unchanged by the swap. -/
theorem claim10_swap_preserves_interface (i o g n : ℕ) (arg : NormArg) (ud : Bool)
    (θ : Env) (pp : List ℕ) (ci co : ℕ) (bias : Bool) (x : Tensor)
    (h1 : 1 ≤ x.h) (h2 : 1 ≤ x.w) :
    (List.range 6).map
        (fun j => (atIdx (buildUnetBlocks i o (n + 8) g arg ud) 1).bind (upEntryAt j))
      = [some (Layer.convT2d (g * 2 * 2) g 4 2 1 (useBias arg)),
         some (Layer.convT2d (g * 4 * 2) (g * 2) 4 2 1 (useBias arg)),
         some (Layer.convT2d (g * 8 * 2) (g * 4) 4 2 1 (useBias arg)),
         some (Layer.convT2d (g * 8 * 2) (g * 8) 4 2 1 (useBias arg)),
         some (Layer.convT2d (g * 8 * 2) (g * 8) 4 2 1 (useBias arg)),
         some (Layer.convT2d (g * 8 * 2) (g * 8) 4 2 1 (useBias arg))]
    ∧ (List.range 6).map
        (fun j => (atIdx (postSwapModel i o g n arg ud) 1).bind (upEntryAt j))
      = [some (Layer.upsampleM (g * 2 * 2) g 2),
         some (Layer.upsampleM (g * 4 * 2) (g * 2) 2),
         some (Layer.upsampleM (g * 8 * 2) (g * 4) 2),
         some (Layer.upsampleM (g * 8 * 2) (g * 8) 2),
         some (Layer.upsampleM (g * 8 * 2) (g * 8) 2),
         some (Layer.upsampleM (g * 8 * 2) (g * 8) 2)]
    ∧ shapeOf (evalL θ (Layer.convT2d ci co 4 2 1 bias) pp x)
        = (x.n, co, 2 * x.h, 2 * x.w)
    ∧ shapeOf (evalL θ (Layer.upsampleM ci co 2) pp x)
        = (x.n, co, 2 * x.h, 2 * x.w) := by
  refine ⟨preSwap_upEntries i o g n arg ud, postSwap_upEntries i o g n arg ud, ?_, ?_⟩
  · simp [shapeOf]
    omega
  · simp [shapeOf, upsampleEval_h θ pp ci co x h1, upsampleEval_w θ pp ci co x h2]

/-- C10 witness: `in = out = 1` channels, zero parameters, a
`1 x 1 x 1 x 1` input. -/
theorem claim10_swap_preserves_interface_witness :
    1 ≤ tensorOne.h
    ∧ shapeOf (evalL envZero (Layer.upsampleM 1 1 2) [] tensorOne) = (1, 1, 2, 2) :=
  ⟨le_rfl,
    (claim10_swap_preserves_interface 3 1 1 0 argInstance false envZero [] 1 1 true
      tensorOne le_rfl le_rfl).2.2.2⟩
